import Mathlib

/-!
Verification of the template-pipeline reification phase
(`packages/compiler/src/template/pipeline/src/phases/reify.ts`).

The phase rewrites semantic IR operations and IR expressions into concrete
runtime instruction calls.  The IR node definitions, the instruction builders
(`ng.*`), the output AST (`o.*`) and the compilation-unit model are imported
by the source file from sibling modules; here they are embedded as Lean
inductive types following the spec's data model, while the reification
functions themselves are translated directly from `reify.ts`.

Fatal conditions (`throw new Error(...)`) are modelled with `Except String`.
-/

namespace Reify

mutual

/-- Output expressions (`o.Expression`) together with the IR expression
variants (`ir.Expression`, which subclass `o.Expression` in the source).
Constructors named `...Expr` are the IR variants (`ir.ExpressionKind` members);
the rest are final output forms: opaque final expressions, variable
references, assignments, function expressions, and the instruction-call
expressions produced by the `ng.*` builders used in `reifyIrExpression`.
Fields model the payloads read by `reify.ts`; payloads the source reads
through a TypeScript non-null assertion (`slot!`, `varOffset!`) are embedded
as already-present values, while payloads the source explicitly null-checks
are embedded as `Option`. -/
inductive Expr : Type where
  /-- An output expression already final before this pass; opaque here. -/
  | final (id : Nat)
  /-- `o.variable(name)`. -/
  | varRef (name : String)
  /-- `o.variable(name).set(value)`. -/
  | setVar (name : String) (value : Expr)
  /-- `o.fn(params, body, ..., name)`; parameters are names only. -/
  | fn (params : List String) (body : List Stmt) (name : Option String)
  /-- `ng.nextContext(steps)`. -/
  | nextContext (steps : Nat)
  /-- `ng.reference(n)`. -/
  | reference (n : Nat)
  /-- `ng.restoreView(view)`. -/
  | restoreView (view : Expr)
  /-- `ng.resetView(expr)`. -/
  | resetView (e : Expr)
  /-- `ng.getCurrentView()`. -/
  | getCurrentView
  /-- `ng.pureFunction(varOffset, fn, args)`. -/
  | pureFunction (varOffset : Nat) (f : Expr) (args : List Expr)
  /-- `ng.pipeBind(slot, varOffset, args)`. -/
  | pipeBind (slot : Nat) (varOffset : Nat) (args : List Expr)
  /-- `ng.pipeBindV(slot, varOffset, args)`. -/
  | pipeBindV (slot : Nat) (varOffset : Nat) (args : List Expr)
  /-- `ir.ExpressionKind.NextContext` with its step count. -/
  | nextContextExpr (steps : Nat)
  /-- `ir.ExpressionKind.Reference` with slot and offset. -/
  | referenceExpr (slot : Nat) (offset : Nat)
  /-- `ir.ExpressionKind.LexicalRead` of a named symbol. -/
  | lexicalReadExpr (name : String)
  /-- `ir.ExpressionKind.RestoreView`: the view is either a still-numeric
  xref placeholder (`Sum.inl`) or a resolved expression (`Sum.inr`). -/
  | restoreViewExpr (view : Nat ⊕ Expr)
  /-- `ir.ExpressionKind.ResetView` wrapping an expression. -/
  | resetViewExpr (e : Expr)
  /-- `ir.ExpressionKind.GetCurrentView`. -/
  | getCurrentViewExpr
  /-- `ir.ExpressionKind.ReadVariable` with xref and possibly-unset name. -/
  | readVariableExpr (xref : Nat) (name : Option String)
  /-- `ir.ExpressionKind.ReadTemporaryExpr` with xref and possibly-unset name. -/
  | readTemporaryExpr (xref : Nat) (name : Option String)
  /-- `ir.ExpressionKind.AssignTemporaryExpr`. -/
  | assignTemporaryExpr (xref : Nat) (name : Option String) (e : Expr)
  /-- `ir.ExpressionKind.PureFunctionExpr`; `fn` is null until extraction. -/
  | pureFunctionExpr (varOffset : Nat) (f : Option Expr) (args : List Expr)
  /-- `ir.ExpressionKind.PureFunctionParameterExpr`. -/
  | pureFunctionParameterExpr
  /-- `ir.ExpressionKind.PipeBinding`. -/
  | pipeBindingExpr (slot : Nat) (varOffset : Nat) (args : List Expr)
  /-- `ir.ExpressionKind.PipeBindingVariadic`. -/
  | pipeBindingVariadicExpr (slot : Nat) (varOffset : Nat) (args : List Expr)
  /-- Modelled from the spec: the remaining `ir.ExpressionKind` members
  outside this pass's dispatch set, carrying the name
  `ir.ExpressionKind[expr.kind]` would print. -/
  | unknownIrExpr (kindName : String)

/-- Output statements (`o.Statement`).  Instruction calls built by the
statement-returning `ng.*` builders are expression statements wrapping an
instruction-call node; `DeclareVarStmt` is the immutable variable declaration
used for `ir.OpKind.Variable` lowering. -/
inductive Stmt : Type where
  /-- A statement-level instruction call (`ng.*(...)` wrapped `.toStmt()`). -/
  | callStmt (c : InstrCall)
  /-- `new o.DeclareVarStmt(name, init, undefined, o.StmtModifier.Final)`. -/
  | declareVar (name : String) (init : Expr)
  /-- A statement already final before this pass; opaque here. -/
  | final (id : Nat)

/-- Statement-level instruction calls, one constructor per `ng.*` builder used
by the create/update lowerers, carrying exactly the arguments the source
passes.  Attribute tables and local-ref tables are constant-pool indices
(numbers or null); source spans are opaque and possibly null. -/
inductive InstrCall : Type where
  | text (slot : Nat) (initialValue : String) (sourceSpan : Option Nat)
  | elementStart (slot : Nat) (tag : String) (attributes : Option Nat)
      (localRefs : Option Nat) (sourceSpan : Option Nat)
  | element (slot : Nat) (tag : String) (attributes : Option Nat)
      (localRefs : Option Nat) (sourceSpan : Option Nat)
  | elementEnd (sourceSpan : Option Nat)
  | elementContainerStart (slot : Nat) (attributes : Option Nat)
      (localRefs : Option Nat) (sourceSpan : Option Nat)
  | elementContainer (slot : Nat) (attributes : Option Nat)
      (localRefs : Option Nat) (sourceSpan : Option Nat)
  | elementContainerEnd
  | template (slot : Nat) (fnRef : Expr) (decls : Nat) (vars : Nat)
      (tag : String) (attributes : Option Nat) (sourceSpan : Option Nat)
  | pipe (slot : Nat) (name : String)
  | listener (name : String) (handlerFn : Expr)
  | advance (delta : Nat) (sourceSpan : Option Nat)
  | property (name : String) (expression : Expr) (sourceSpan : Option Nat)
  | propertyInterpolate (name : String) (strings : List String)
      (expressions : List Expr) (sourceSpan : Option Nat)
  | styleProp (name : String) (expression : Expr) (unitSuffix : Option String)
  | stylePropInterpolate (name : String) (strings : List String)
      (expressions : List Expr) (unitSuffix : Option String)
  | classProp (name : String) (expression : Expr)
  | styleMap (expression : Expr)
  | styleMapInterpolate (strings : List String) (expressions : List Expr)
  | classMap (expression : Expr)
  | classMapInterpolate (strings : List String) (expressions : List Expr)
  | textInterpolate (strings : List String) (expressions : List Expr)
      (sourceSpan : Option Nat)
  | attributeCall (name : String) (expression : Expr)
  | attributeInterpolate (name : String) (strings : List String)
      (expressions : List Expr)
  | hostProperty (name : String) (expression : Expr)

end

/-- `ir.isIrExpression`: true exactly on the IR expression variants. -/
def Expr.isIr : Expr → Bool
  | .nextContextExpr _ => true
  | .referenceExpr _ _ => true
  | .lexicalReadExpr _ => true
  | .restoreViewExpr _ => true
  | .resetViewExpr _ => true
  | .getCurrentViewExpr => true
  | .readVariableExpr _ _ => true
  | .readTemporaryExpr _ _ => true
  | .assignTemporaryExpr _ _ _ => true
  | .pureFunctionExpr _ _ _ => true
  | .pureFunctionParameterExpr => true
  | .pipeBindingExpr _ _ _ => true
  | .pipeBindingVariadicExpr _ _ _ => true
  | .unknownIrExpr _ => true
  | _ => false

/-- `reifyIrExpression` (reify.ts lines 209-260): the per-node dispatch of the
expression rewriter.  Non-IR expressions are returned unchanged; each IR
variant is replaced by its instruction call, variable reference, or
assignment, or raises the corresponding fatal assertion error. -/
def reifyIrExpression (expr : Expr) : Except String Expr :=
  if !expr.isIr then .ok expr else
  match expr with
  | .nextContextExpr steps => .ok (.nextContext steps)
  | .referenceExpr slot offset => .ok (.reference (slot + 1 + offset))
  | .lexicalReadExpr name =>
      .error ("AssertionError: unresolved LexicalRead of " ++ name)
  | .restoreViewExpr (Sum.inl _) => .error "AssertionError: unresolved RestoreView"
  | .restoreViewExpr (Sum.inr view) => .ok (.restoreView view)
  | .resetViewExpr e => .ok (.resetView e)
  | .getCurrentViewExpr => .ok .getCurrentView
  | .readVariableExpr xref none =>
      .error ("Read of unnamed variable " ++ toString xref)
  | .readVariableExpr _ (some name) => .ok (.varRef name)
  | .readTemporaryExpr xref none =>
      .error ("Read of unnamed temporary " ++ toString xref)
  | .readTemporaryExpr _ (some name) => .ok (.varRef name)
  | .assignTemporaryExpr xref none _ =>
      .error ("Assign of unnamed temporary " ++ toString xref)
  | .assignTemporaryExpr _ (some name) e => .ok (.setVar name e)
  | .pureFunctionExpr _ none _ =>
      .error "AssertionError: expected PureFunctions to have been extracted"
  | .pureFunctionExpr varOffset (some f) args => .ok (.pureFunction varOffset f args)
  | .pureFunctionParameterExpr =>
      .error "AssertionError: expected PureFunctionParameterExpr to have been extracted"
  | .pipeBindingExpr slot varOffset args => .ok (.pipeBind slot varOffset args)
  | .pipeBindingVariadicExpr slot varOffset args => .ok (.pipeBindV slot varOffset args)
  | .unknownIrExpr k =>
      .error ("AssertionError: Unsupported reification of ir.Expression kind: " ++ k)
  | e => .ok e

mutual

/-- Modelled from the spec: the generic "transform all expressions in this
operation" utility (`ir.transformExpressionsInOp`) "walks an operation's
expression subtrees and applies a given substitution function bottom-up",
here specialised to the substitution `reifyIrExpression`.  Children are
transformed first, then the substitution is applied to the rebuilt node. -/
def transformExpr : Expr → Except String Expr
  | .setVar n v =>
      match transformExpr v with
      | .error m => .error m
      | .ok v' => reifyIrExpression (.setVar n v')
  | .fn ps body nm =>
      match transformStmtList body with
      | .error m => .error m
      | .ok body' => reifyIrExpression (.fn ps body' nm)
  | .restoreView v =>
      match transformExpr v with
      | .error m => .error m
      | .ok v' => reifyIrExpression (.restoreView v')
  | .resetView e =>
      match transformExpr e with
      | .error m => .error m
      | .ok e' => reifyIrExpression (.resetView e')
  | .pureFunction vo f args =>
      match transformExpr f with
      | .error m => .error m
      | .ok f' =>
        match transformExprList args with
        | .error m => .error m
        | .ok args' => reifyIrExpression (.pureFunction vo f' args')
  | .pipeBind slot vo args =>
      match transformExprList args with
      | .error m => .error m
      | .ok args' => reifyIrExpression (.pipeBind slot vo args')
  | .pipeBindV slot vo args =>
      match transformExprList args with
      | .error m => .error m
      | .ok args' => reifyIrExpression (.pipeBindV slot vo args')
  | .restoreViewExpr (Sum.inr v) =>
      match transformExpr v with
      | .error m => .error m
      | .ok v' => reifyIrExpression (.restoreViewExpr (Sum.inr v'))
  | .resetViewExpr e =>
      match transformExpr e with
      | .error m => .error m
      | .ok e' => reifyIrExpression (.resetViewExpr e')
  | .assignTemporaryExpr xref nm e =>
      match transformExpr e with
      | .error m => .error m
      | .ok e' => reifyIrExpression (.assignTemporaryExpr xref nm e')
  | .pureFunctionExpr vo f args =>
      match transformExprOpt f with
      | .error m => .error m
      | .ok f' =>
        match transformExprList args with
        | .error m => .error m
        | .ok args' => reifyIrExpression (.pureFunctionExpr vo f' args')
  | .pipeBindingExpr slot vo args =>
      match transformExprList args with
      | .error m => .error m
      | .ok args' => reifyIrExpression (.pipeBindingExpr slot vo args')
  | .pipeBindingVariadicExpr slot vo args =>
      match transformExprList args with
      | .error m => .error m
      | .ok args' => reifyIrExpression (.pipeBindingVariadicExpr slot vo args')
  | e => reifyIrExpression e

/-- Bottom-up transformation of a list of sibling sub-expressions. -/
def transformExprList : List Expr → Except String (List Expr)
  | [] => .ok []
  | e :: rest =>
      match transformExpr e with
      | .error m => .error m
      | .ok e' =>
        match transformExprList rest with
        | .error m => .error m
        | .ok rest' => .ok (e' :: rest')

/-- Bottom-up transformation of an optional sub-expression. -/
def transformExprOpt : Option Expr → Except String (Option Expr)
  | none => .ok none
  | some e =>
      match transformExpr e with
      | .error m => .error m
      | .ok e' => .ok (some e')

/-- Bottom-up transformation of the expressions inside a statement
(`ir.transformExpressionsInStatement`). -/
def transformStmt : Stmt → Except String Stmt
  | .callStmt c =>
      match transformInstrCall c with
      | .error m => .error m
      | .ok c' => .ok (.callStmt c')
  | .declareVar n init =>
      match transformExpr init with
      | .error m => .error m
      | .ok init' => .ok (.declareVar n init')
  | .final i => .ok (.final i)

/-- Bottom-up transformation of a list of statements. -/
def transformStmtList : List Stmt → Except String (List Stmt)
  | [] => .ok []
  | s :: rest =>
      match transformStmt s with
      | .error m => .error m
      | .ok s' =>
        match transformStmtList rest with
        | .error m => .error m
        | .ok rest' => .ok (s' :: rest')

/-- Bottom-up transformation of the expression arguments of a
statement-level instruction call. -/
def transformInstrCall : InstrCall → Except String InstrCall
  | .template slot fnRef decls vars tag attrs span =>
      match transformExpr fnRef with
      | .error m => .error m
      | .ok fnRef' => .ok (.template slot fnRef' decls vars tag attrs span)
  | .listener name handlerFn =>
      match transformExpr handlerFn with
      | .error m => .error m
      | .ok f' => .ok (.listener name f')
  | .property name e span =>
      match transformExpr e with
      | .error m => .error m
      | .ok e' => .ok (.property name e' span)
  | .propertyInterpolate name ss es span =>
      match transformExprList es with
      | .error m => .error m
      | .ok es' => .ok (.propertyInterpolate name ss es' span)
  | .styleProp name e u =>
      match transformExpr e with
      | .error m => .error m
      | .ok e' => .ok (.styleProp name e' u)
  | .stylePropInterpolate name ss es u =>
      match transformExprList es with
      | .error m => .error m
      | .ok es' => .ok (.stylePropInterpolate name ss es' u)
  | .classProp name e =>
      match transformExpr e with
      | .error m => .error m
      | .ok e' => .ok (.classProp name e')
  | .styleMap e =>
      match transformExpr e with
      | .error m => .error m
      | .ok e' => .ok (.styleMap e')
  | .styleMapInterpolate ss es =>
      match transformExprList es with
      | .error m => .error m
      | .ok es' => .ok (.styleMapInterpolate ss es')
  | .classMap e =>
      match transformExpr e with
      | .error m => .error m
      | .ok e' => .ok (.classMap e')
  | .classMapInterpolate ss es =>
      match transformExprList es with
      | .error m => .error m
      | .ok es' => .ok (.classMapInterpolate ss es')
  | .textInterpolate ss es span =>
      match transformExprList es with
      | .error m => .error m
      | .ok es' => .ok (.textInterpolate ss es' span)
  | .attributeCall name e =>
      match transformExpr e with
      | .error m => .error m
      | .ok e' => .ok (.attributeCall name e')
  | .attributeInterpolate name ss es =>
      match transformExprList es with
      | .error m => .error m
      | .ok es' => .ok (.attributeInterpolate name ss es')
  | .hostProperty name e =>
      match transformExpr e with
      | .error m => .error m
      | .ok e' => .ok (.hostProperty name e')
  | c => .ok c

end

mutual

/-- No IR expression variant occurs anywhere in the expression tree. -/
def irFreeExpr : Expr → Bool
  | .setVar _ v => irFreeExpr v
  | .fn _ body _ => irFreeStmtList body
  | .restoreView v => irFreeExpr v
  | .resetView e => irFreeExpr e
  | .pureFunction _ f args => irFreeExpr f && irFreeExprList args
  | .pipeBind _ _ args => irFreeExprList args
  | .pipeBindV _ _ args => irFreeExprList args
  | e => !e.isIr

/-- No IR expression variant occurs in any expression of the list. -/
def irFreeExprList : List Expr → Bool
  | [] => true
  | e :: rest => irFreeExpr e && irFreeExprList rest

/-- No IR expression variant occurs in any expression subtree of the
statement. -/
def irFreeStmt : Stmt → Bool
  | .callStmt c => irFreeInstrCall c
  | .declareVar _ init => irFreeExpr init
  | .final _ => true

/-- No IR expression variant occurs in any statement of the list. -/
def irFreeStmtList : List Stmt → Bool
  | [] => true
  | s :: rest => irFreeStmt s && irFreeStmtList rest

/-- No IR expression variant occurs in any expression argument of the
instruction call. -/
def irFreeInstrCall : InstrCall → Bool
  | .template _ fnRef _ _ _ _ _ => irFreeExpr fnRef
  | .listener _ handlerFn => irFreeExpr handlerFn
  | .property _ e _ => irFreeExpr e
  | .propertyInterpolate _ _ es _ => irFreeExprList es
  | .styleProp _ e _ => irFreeExpr e
  | .stylePropInterpolate _ _ es _ => irFreeExprList es
  | .classProp _ e => irFreeExpr e
  | .styleMap e => irFreeExpr e
  | .styleMapInterpolate _ es => irFreeExprList es
  | .classMap e => irFreeExpr e
  | .classMapInterpolate _ es => irFreeExprList es
  | .textInterpolate _ es _ => irFreeExprList es
  | .attributeCall _ e => irFreeExpr e
  | .attributeInterpolate _ _ es => irFreeExprList es
  | .hostProperty _ e => irFreeExpr e
  | _ => true

end

/-- The interpolation carrier (`ir.Interpolation`): literal string fragments
interleaved with sub-expressions. -/
structure Interpolation : Type where
  strings : List String
  expressions : List Expr

/-- The expression payload of a binding operation, typed in the source as
`o.Expression | ir.Interpolation`; the lowerer branches on
`instanceof ir.Interpolation`. -/
inductive OpExpr : Type where
  | expr (e : Expr)
  | interp (i : Interpolation)

/-- Update-phase operations (`ir.UpdateOp`), with the payload fields read by
`reifyUpdateOperations`.  `unknownOp` stands for the remaining members of the
`ir.OpKind` enum (modelled from the spec's "30+ kinds"), carrying the name
`ir.OpKind[op.kind]` would print. -/
inductive UpdateOp : Type where
  | advance (delta : Nat) (sourceSpan : Option Nat)
  | property (name : String) (expression : OpExpr) (sourceSpan : Option Nat)
  | styleProp (name : String) (expression : OpExpr) (unitSuffix : Option String)
  | classProp (name : String) (expression : Expr)
  | styleMap (expression : OpExpr)
  | classMap (expression : OpExpr)
  | interpolateText (interpolation : Interpolation) (sourceSpan : Option Nat)
  | attributeOp (name : String) (expression : OpExpr)
  | hostProperty (name : String) (expression : OpExpr)
  | variableOp (xref : Nat) (name : Option String) (initializer : Expr)
  | statement (stmt : Stmt)
  | unknownOp (kindName : String)

/-- Create-phase operations (`ir.CreateOp`), with the payload fields read by
`reifyCreateOperations`.  Container ops carry a tag in their payload like the
element ops (modelled from the spec's element/container payload description);
`unknownOp` stands for the remaining `ir.OpKind` members. -/
inductive CreateOp : Type where
  | text (slot : Nat) (initialValue : String) (sourceSpan : Option Nat)
  | elementStart (slot : Nat) (tag : String) (attributes : Option Nat)
      (localRefs : Option Nat) (sourceSpan : Option Nat)
  | element (slot : Nat) (tag : String) (attributes : Option Nat)
      (localRefs : Option Nat) (sourceSpan : Option Nat)
  | elementEnd (sourceSpan : Option Nat)
  | containerStart (slot : Nat) (tag : String) (attributes : Option Nat)
      (localRefs : Option Nat) (sourceSpan : Option Nat)
  | container (slot : Nat) (tag : String) (attributes : Option Nat)
      (localRefs : Option Nat) (sourceSpan : Option Nat)
  | containerEnd
  | template (xref : Nat) (slot : Nat) (tag : String) (attributes : Option Nat)
      (sourceSpan : Option Nat)
  | pipe (slot : Nat) (name : String)
  | listener (name : String) (handlerFnName : String)
      (handlerOps : List UpdateOp) (consumesDollarEvent : Bool)
  | variableOp (xref : Nat) (name : Option String) (initializer : Expr)
  | statement (stmt : Stmt)
  | unknownOp (kindName : String)

/-- The enum name `ir.OpKind[op.kind]` used in assertion messages. -/
def UpdateOp.kindName : UpdateOp → String
  | .advance .. => "Advance"
  | .property .. => "Property"
  | .styleProp .. => "StyleProp"
  | .classProp .. => "ClassProp"
  | .styleMap .. => "StyleMap"
  | .classMap .. => "ClassMap"
  | .interpolateText .. => "InterpolateText"
  | .attributeOp .. => "Attribute"
  | .hostProperty .. => "HostProperty"
  | .variableOp .. => "Variable"
  | .statement .. => "Statement"
  | .unknownOp k => k

/-- `ir.StatementOp` test: is the operation a pass-through statement wrapper? -/
def UpdateOp.isStatementOp : UpdateOp → Bool
  | .statement _ => true
  | _ => false

/-- `ir.StatementOp` test: is the operation a pass-through statement wrapper? -/
def CreateOp.isStatementOp : CreateOp → Bool
  | .statement _ => true
  | _ => false

/-- No IR expression variant occurs in any expression subtree of the
update operation (the listener payloads live on create ops only). -/
def irFreeOpExpr : OpExpr → Bool
  | .expr e => irFreeExpr e
  | .interp i => irFreeExprList i.expressions

/-- No IR expression variant occurs in any expression subtree of the
update operation. -/
def irFreeUpdateOp : UpdateOp → Bool
  | .advance .. => true
  | .property _ e _ => irFreeOpExpr e
  | .styleProp _ e _ => irFreeOpExpr e
  | .classProp _ e => irFreeExpr e
  | .styleMap e => irFreeOpExpr e
  | .classMap e => irFreeOpExpr e
  | .interpolateText i _ => irFreeExprList i.expressions
  | .attributeOp _ e => irFreeOpExpr e
  | .hostProperty _ e => irFreeOpExpr e
  | .variableOp _ _ init => irFreeExpr init
  | .statement s => irFreeStmt s
  | .unknownOp _ => true

/-- No IR expression variant occurs in any expression subtree of the
create operation (including listener handler bodies). -/
def irFreeCreateOp : CreateOp → Bool
  | .listener _ _ handlerOps _ => handlerOps.all irFreeUpdateOp
  | .variableOp _ _ init => irFreeExpr init
  | .statement s => irFreeStmt s
  | _ => true

/-- Bottom-up transformation of an interpolation carrier: the carrier shape
and its literal fragments are preserved, its sub-expressions are rewritten. -/
def transformInterpolation (i : Interpolation) : Except String Interpolation :=
  match transformExprList i.expressions with
  | .error m => .error m
  | .ok es' => .ok ⟨i.strings, es'⟩

/-- Bottom-up transformation of a binding payload; an interpolation carrier
stays an interpolation carrier. -/
def transformOpExpr : OpExpr → Except String OpExpr
  | .expr e =>
      match transformExpr e with
      | .error m => .error m
      | .ok e' => .ok (.expr e')
  | .interp i =>
      match transformInterpolation i with
      | .error m => .error m
      | .ok i' => .ok (.interp i')

/-- `ir.transformExpressionsInOp(op, reifyIrExpression, ...)` for an update
operation: rewrites every expression subtree the operation carries. -/
def transformUpdateOp : UpdateOp → Except String UpdateOp
  | .advance delta span => .ok (.advance delta span)
  | .property name e span =>
      match transformOpExpr e with
      | .error m => .error m
      | .ok e' => .ok (.property name e' span)
  | .styleProp name e u =>
      match transformOpExpr e with
      | .error m => .error m
      | .ok e' => .ok (.styleProp name e' u)
  | .classProp name e =>
      match transformExpr e with
      | .error m => .error m
      | .ok e' => .ok (.classProp name e')
  | .styleMap e =>
      match transformOpExpr e with
      | .error m => .error m
      | .ok e' => .ok (.styleMap e')
  | .classMap e =>
      match transformOpExpr e with
      | .error m => .error m
      | .ok e' => .ok (.classMap e')
  | .interpolateText i span =>
      match transformInterpolation i with
      | .error m => .error m
      | .ok i' => .ok (.interpolateText i' span)
  | .attributeOp name e =>
      match transformOpExpr e with
      | .error m => .error m
      | .ok e' => .ok (.attributeOp name e')
  | .hostProperty name e =>
      match transformOpExpr e with
      | .error m => .error m
      | .ok e' => .ok (.hostProperty name e')
  | .variableOp xref name init =>
      match transformExpr init with
      | .error m => .error m
      | .ok init' => .ok (.variableOp xref name init')
  | .statement s =>
      match transformStmt s with
      | .error m => .error m
      | .ok s' => .ok (.statement s')
  | .unknownOp k => .ok (.unknownOp k)

/-- `ir.transformExpressionsInOp(op, reifyIrExpression, ...)` for a create
operation.  The structural ops carry no expression subtrees; a listener's
handler operations are rewritten when the listener itself is lowered
(`reifyListenerHandler` runs the update lowerer over them, which transforms
each handler operation's expressions). -/
def transformCreateOp : CreateOp → Except String CreateOp
  | .variableOp xref name init =>
      match transformExpr init with
      | .error m => .error m
      | .ok init' => .ok (.variableOp xref name init')
  | .statement s =>
      match transformStmt s with
      | .error m => .error m
      | .ok s' => .ok (.statement s')
  | op => .ok op

/-- Modelled from the spec: the per-view metadata a nested-template lowering
reads from the sibling unit resolved through the job's view map — the
generated function name, declared slot count and variable slot count, all
resolved (non-null) by the time this pass runs. -/
structure ViewData : Type where
  fnName : String
  decls : Nat
  vars : Nat

/-- Modelled from the spec: a compilation unit (`CompilationUnit`).
`isViewUnit` models the `unit instanceof ViewCompilationUnit` test
(component-level view unit vs. host-binding pseudo-unit); `jobViews` models
the owning job's read-only view map `unit.job.views` reached through the
unit's back-reference. -/
structure CompilationUnit : Type where
  xref : Nat
  isViewUnit : Bool
  jobViews : List (Nat × ViewData)
  create : List CreateOp
  update : List UpdateOp

/-- Modelled from the spec: a compilation job (`CompilationJob`) owning its
iterable set of units. -/
structure CompilationJob : Type where
  units : List CompilationUnit

/-- One step of `reifyUpdateOperations`'s loop body: transform all
expressions in the operation, then dispatch on its kind and build the
replacement operation spliced in place of the original
(reify.ts lines 122-206). -/
def reifyUpdateOp (op : UpdateOp) : Except String UpdateOp :=
  match transformUpdateOp op with
  | .error m => .error m
  | .ok op' =>
    match op' with
    | .advance delta span => .ok (.statement (.callStmt (.advance delta span)))
    | .property name e span =>
        match e with
        | .interp i =>
            .ok (.statement (.callStmt
              (.propertyInterpolate name i.strings i.expressions span)))
        | .expr e => .ok (.statement (.callStmt (.property name e span)))
    | .styleProp name e u =>
        match e with
        | .interp i =>
            .ok (.statement (.callStmt
              (.stylePropInterpolate name i.strings i.expressions u)))
        | .expr e => .ok (.statement (.callStmt (.styleProp name e u)))
    | .classProp name e => .ok (.statement (.callStmt (.classProp name e)))
    | .styleMap e =>
        match e with
        | .interp i =>
            .ok (.statement (.callStmt (.styleMapInterpolate i.strings i.expressions)))
        | .expr e => .ok (.statement (.callStmt (.styleMap e)))
    | .classMap e =>
        match e with
        | .interp i =>
            .ok (.statement (.callStmt (.classMapInterpolate i.strings i.expressions)))
        | .expr e => .ok (.statement (.callStmt (.classMap e)))
    | .interpolateText i span =>
        .ok (.statement (.callStmt (.textInterpolate i.strings i.expressions span)))
    | .attributeOp name e =>
        match e with
        | .interp i =>
            .ok (.statement (.callStmt
              (.attributeInterpolate name i.strings i.expressions)))
        | .expr e => .ok (.statement (.callStmt (.attributeCall name e)))
    | .hostProperty name e =>
        match e with
        | .interp _ => .error "not yet handled"
        | .expr e => .ok (.statement (.callStmt (.hostProperty name e)))
    | .variableOp xref none _ =>
        .error ("AssertionError: unnamed variable " ++ toString xref)
    | .variableOp _ (some n) init => .ok (.statement (.declareVar n init))
    | .statement s => .ok (.statement s)
    | .unknownOp k =>
        .error ("AssertionError: Unsupported reification of update op " ++ k)

/-- The in-order traversal of `reifyUpdateOperations` over an operation list:
each operation is replaced in place by its lowering; the first fatal
condition aborts. -/
def reifyUpdateOpList : List UpdateOp → Except String (List UpdateOp)
  | [] => .ok []
  | op :: rest =>
      match reifyUpdateOp op with
      | .error m => .error m
      | .ok op' =>
        match reifyUpdateOpList rest with
        | .error m => .error m
        | .ok rest' => .ok (op' :: rest')

/-- `reifyUpdateOperations(_unit, ops)` (reify.ts lines 121-207).  The unit
parameter is declared but never read by the source function. -/
def reifyUpdateOperations (_unit : CompilationUnit) (ops : List UpdateOp) :
    Except String (List UpdateOp) :=
  reifyUpdateOpList ops

/-- The statement-extraction loop of `reifyListenerHandler`
(reify.ts lines 274-281): every reified handler operation must be a
pass-through statement wrapper; its statement is collected in order. -/
def extractHandlerStatements : List UpdateOp → Except String (List Stmt)
  | [] => .ok []
  | .statement s :: rest =>
      match extractHandlerStatements rest with
      | .error m => .error m
      | .ok ss => .ok (s :: ss)
  | op :: _ =>
      .error ("AssertionError: expected reified statements, but found op " ++ op.kindName)

/-- `reifyListenerHandler` (reify.ts lines 266-291): reify the listener's
private handler operation list, extract the wrapped statements, and build the
handler function with the `$event` parameter exactly when the listener
consumes the event value. -/
def reifyListenerHandler (unit : CompilationUnit) (name : String)
    (handlerOps : List UpdateOp) (consumesDollarEvent : Bool) :
    Except String Expr :=
  match reifyUpdateOperations unit handlerOps with
  | .error m => .error m
  | .ok reified =>
    match extractHandlerStatements reified with
    | .error m => .error m
    | .ok handlerStmts =>
      .ok (.fn (if consumesDollarEvent then ["$event"] else [])
           handlerStmts (some name))

/-- One step of `reifyCreateOperations`'s loop body: transform all
expressions in the operation, then dispatch on its kind and build the
replacement operation spliced in place of the original
(reify.ts lines 30-117). -/
def reifyCreateOp (unit : CompilationUnit) (op : CreateOp) :
    Except String CreateOp :=
  match transformCreateOp op with
  | .error m => .error m
  | .ok op' =>
    match op' with
    | .text slot v span => .ok (.statement (.callStmt (.text slot v span)))
    | .elementStart slot tag attrs refs span =>
        .ok (.statement (.callStmt (.elementStart slot tag attrs refs span)))
    | .element slot tag attrs refs span =>
        .ok (.statement (.callStmt (.element slot tag attrs refs span)))
    | .elementEnd span => .ok (.statement (.callStmt (.elementEnd span)))
    | .containerStart slot _tag attrs refs span =>
        .ok (.statement (.callStmt (.elementContainerStart slot attrs refs span)))
    | .container slot _tag attrs refs span =>
        .ok (.statement (.callStmt (.elementContainer slot attrs refs span)))
    | .containerEnd => .ok (.statement (.callStmt .elementContainerEnd))
    | .template xref slot tag attrs span =>
        if unit.isViewUnit then
          match unit.jobViews.lookup xref with
          | none =>
              -- `unit.job.views.get(op.xref)!` with a missing entry fails at
              -- the following property access at runtime.
              .error ("TypeError: no view for xref " ++ toString xref)
          | some childView =>
              .ok (.statement (.callStmt
                (.template slot (.varRef childView.fnName) childView.decls
                  childView.vars tag attrs span)))
        else .error "AssertionError: must be compiling a component"
    | .pipe slot name => .ok (.statement (.callStmt (.pipe slot name)))
    | .listener name fnName handlerOps consumes =>
        match reifyListenerHandler unit fnName handlerOps consumes with
        | .error m => .error m
        | .ok listenerFn =>
            .ok (.statement (.callStmt (.listener name listenerFn)))
    | .variableOp xref none _ =>
        .error ("AssertionError: unnamed variable " ++ toString xref)
    | .variableOp _ (some n) init => .ok (.statement (.declareVar n init))
    | .statement s => .ok (.statement s)
    | .unknownOp k =>
        .error ("AssertionError: Unsupported reification of create op " ++ k)

/-- The in-order traversal of `reifyCreateOperations` over an operation list. -/
def reifyCreateOpList (unit : CompilationUnit) :
    List CreateOp → Except String (List CreateOp)
  | [] => .ok []
  | op :: rest =>
      match reifyCreateOp unit op with
      | .error m => .error m
      | .ok op' =>
        match reifyCreateOpList unit rest with
        | .error m => .error m
        | .ok rest' => .ok (op' :: rest')

/-- `reifyCreateOperations(unit, ops)` (reify.ts lines 29-119). -/
def reifyCreateOperations (unit : CompilationUnit) (ops : List CreateOp) :
    Except String (List CreateOp) :=
  reifyCreateOpList unit ops

/-- The body of `phaseReify`'s loop for one unit: reify its create list, then
its update list (reify.ts lines 23-26). -/
def reifyUnit (unit : CompilationUnit) : Except String CompilationUnit :=
  match reifyCreateOperations unit unit.create with
  | .error m => .error m
  | .ok create' =>
    match reifyUpdateOperations unit unit.update with
    | .error m => .error m
    | .ok update' => .ok { unit with create := create', update := update' }

/-- The iteration of `phaseReify` over all units of a job. -/
def reifyUnitList : List CompilationUnit → Except String (List CompilationUnit)
  | [] => .ok []
  | unit :: rest =>
      match reifyUnit unit with
      | .error m => .error m
      | .ok unit' =>
        match reifyUnitList rest with
        | .error m => .error m
        | .ok rest' => .ok (unit' :: rest')

/-- `phaseReify(cpl)` (reify.ts lines 22-27): for every unit of the job,
reify the create operations, then the update operations, in place. -/
def phaseReify (cpl : CompilationJob) : Except String CompilationJob :=
  match reifyUnitList cpl.units with
  | .error m => .error m
  | .ok units' => .ok { units := units' }

/-- No IR expression variant occurs in an optional sub-expression. -/
def irFreeExprOpt : Option Expr → Bool
  | none => true
  | some e => irFreeExpr e

/-- The statement wrapped by a pass-through statement op, if any. -/
def UpdateOp.wrappedStatement : UpdateOp → Option Stmt
  | .statement s => some s
  | _ => none

/-- A sample job exercising element, nested-template, listener, variable and
interpolated-property operations, used to evaluate the pass on a concrete
input. -/
def exampleJob : CompilationJob :=
  ⟨[⟨0, true, [(1, ⟨"Child", 2, 3⟩)],
    [.elementStart 0 "div" none none (some 1),
     .template 1 1 "ng-template" (some 0) none,
     .listener "click" "handler"
       [.variableOp 5 (some "ctx") (.nextContextExpr 1)] true,
     .elementEnd (some 1)],
    [.advance 1 none,
     .property "title" (.interp ⟨["a", "b"], [.readVariableExpr 5 (some "v")]⟩)
       none]⟩]⟩

/-- The reified form of `exampleJob`. -/
def exampleJobReified : CompilationJob :=
  ⟨[⟨0, true, [(1, ⟨"Child", 2, 3⟩)],
    [.statement (.callStmt (.elementStart 0 "div" none none (some 1))),
     .statement (.callStmt (.template 1 (.varRef "Child") 2 3 "ng-template"
       (some 0) none)),
     .statement (.callStmt (.listener "click"
       (.fn ["$event"] [.declareVar "ctx" (.nextContext 1)] (some "handler")))),
     .statement (.callStmt (.elementEnd (some 1)))],
    [.statement (.callStmt (.advance 1 none)),
     .statement (.callStmt (.propertyInterpolate "title" ["a", "b"]
       [.varRef "v"] none))]⟩]⟩

set_option maxHeartbeats 2000000 in
mutual

/-- A successful bottom-up rewrite leaves no IR expression variant in the
resulting expression tree. -/
theorem transformExpr_irFree :
    ∀ e e', transformExpr e = .ok e' → irFreeExpr e' = true
  | .final _, _, h => by injection h with h; subst h; rfl
  | .varRef _, _, h => by injection h with h; subst h; rfl
  | .setVar n v, e', h => by
      simp only [transformExpr] at h
      cases hv : transformExpr v with
      | error m => rw [hv] at h; exact Except.noConfusion h
      | ok v' =>
        rw [hv] at h
        injection h with h
        subst h
        exact transformExpr_irFree v v' hv
  | .fn ps body nm, e', h => by
      simp only [transformExpr] at h
      cases hb : transformStmtList body with
      | error m => rw [hb] at h; exact Except.noConfusion h
      | ok body' =>
        rw [hb] at h
        injection h with h
        subst h
        exact transformStmtList_irFree body body' hb
  | .nextContext _, _, h => by injection h with h; subst h; rfl
  | .reference _, _, h => by injection h with h; subst h; rfl
  | .restoreView v, e', h => by
      simp only [transformExpr] at h
      cases hv : transformExpr v with
      | error m => rw [hv] at h; exact Except.noConfusion h
      | ok v' =>
        rw [hv] at h
        injection h with h
        subst h
        exact transformExpr_irFree v v' hv
  | .resetView e, e', h => by
      simp only [transformExpr] at h
      cases he : transformExpr e with
      | error m => rw [he] at h; exact Except.noConfusion h
      | ok e2 =>
        rw [he] at h
        injection h with h
        subst h
        exact transformExpr_irFree e e2 he
  | .getCurrentView, _, h => by injection h with h; subst h; rfl
  | .pureFunction vo f args, e', h => by
      simp only [transformExpr] at h
      cases hf : transformExpr f with
      | error m => rw [hf] at h; exact Except.noConfusion h
      | ok f' =>
        rw [hf] at h
        cases ha : transformExprList args with
        | error m => rw [ha] at h; exact Except.noConfusion h
        | ok args' =>
          rw [ha] at h
          injection h with h
          subst h
          show (irFreeExpr f' && irFreeExprList args') = true
          rw [transformExpr_irFree f f' hf, transformExprList_irFree args args' ha]
          rfl
  | .pipeBind s vo args, e', h => by
      simp only [transformExpr] at h
      cases ha : transformExprList args with
      | error m => rw [ha] at h; exact Except.noConfusion h
      | ok args' =>
        rw [ha] at h
        injection h with h
        subst h
        exact transformExprList_irFree args args' ha
  | .pipeBindV s vo args, e', h => by
      simp only [transformExpr] at h
      cases ha : transformExprList args with
      | error m => rw [ha] at h; exact Except.noConfusion h
      | ok args' =>
        rw [ha] at h
        injection h with h
        subst h
        exact transformExprList_irFree args args' ha
  | .nextContextExpr _, _, h => by injection h with h; subst h; rfl
  | .referenceExpr _ _, _, h => by injection h with h; subst h; rfl
  | .lexicalReadExpr _, _, h => Except.noConfusion h
  | .restoreViewExpr (Sum.inl _), _, h => Except.noConfusion h
  | .restoreViewExpr (Sum.inr v), e', h => by
      simp only [transformExpr] at h
      cases hv : transformExpr v with
      | error m => rw [hv] at h; exact Except.noConfusion h
      | ok v' =>
        rw [hv] at h
        injection h with h
        subst h
        exact transformExpr_irFree v v' hv
  | .resetViewExpr e, e', h => by
      simp only [transformExpr] at h
      cases he : transformExpr e with
      | error m => rw [he] at h; exact Except.noConfusion h
      | ok e2 =>
        rw [he] at h
        injection h with h
        subst h
        exact transformExpr_irFree e e2 he
  | .getCurrentViewExpr, _, h => by injection h with h; subst h; rfl
  | .readVariableExpr xref nm, e', h => by
      cases nm with
      | none => exact Except.noConfusion h
      | some n => injection h with h; subst h; rfl
  | .readTemporaryExpr xref nm, e', h => by
      cases nm with
      | none => exact Except.noConfusion h
      | some n => injection h with h; subst h; rfl
  | .assignTemporaryExpr xref nm e, e', h => by
      simp only [transformExpr] at h
      cases he : transformExpr e with
      | error m => rw [he] at h; exact Except.noConfusion h
      | ok e2 =>
        rw [he] at h
        cases nm with
        | none => exact Except.noConfusion h
        | some n =>
          injection h with h
          subst h
          exact transformExpr_irFree e e2 he
  | .pureFunctionExpr vo f args, e', h => by
      simp only [transformExpr] at h
      cases hf : transformExprOpt f with
      | error m => rw [hf] at h; exact Except.noConfusion h
      | ok f' =>
        rw [hf] at h
        cases ha : transformExprList args with
        | error m => rw [ha] at h; exact Except.noConfusion h
        | ok args' =>
          rw [ha] at h
          cases f' with
          | none => exact Except.noConfusion h
          | some g =>
            injection h with h
            subst h
            show (irFreeExpr g && irFreeExprList args') = true
            have hg : irFreeExprOpt (some g) = true := transformExprOpt_irFree f (some g) hf
            rw [show irFreeExprOpt (some g) = irFreeExpr g from rfl] at hg
            rw [hg, transformExprList_irFree args args' ha]
            rfl
  | .pureFunctionParameterExpr, _, h => Except.noConfusion h
  | .pipeBindingExpr s vo args, e', h => by
      simp only [transformExpr] at h
      cases ha : transformExprList args with
      | error m => rw [ha] at h; exact Except.noConfusion h
      | ok args' =>
        rw [ha] at h
        injection h with h
        subst h
        exact transformExprList_irFree args args' ha
  | .pipeBindingVariadicExpr s vo args, e', h => by
      simp only [transformExpr] at h
      cases ha : transformExprList args with
      | error m => rw [ha] at h; exact Except.noConfusion h
      | ok args' =>
        rw [ha] at h
        injection h with h
        subst h
        exact transformExprList_irFree args args' ha
  | .unknownIrExpr _, _, h => Except.noConfusion h

/-- List version of `transformExpr_irFree`. -/
theorem transformExprList_irFree :
    ∀ es es', transformExprList es = .ok es' → irFreeExprList es' = true
  | [], _, h => by injection h with h; subst h; rfl
  | e :: rest, es', h => by
      simp only [transformExprList] at h
      cases he : transformExpr e with
      | error m => rw [he] at h; exact Except.noConfusion h
      | ok e' =>
        rw [he] at h
        cases hr : transformExprList rest with
        | error m => rw [hr] at h; exact Except.noConfusion h
        | ok rest' =>
          rw [hr] at h
          injection h with h
          subst h
          show (irFreeExpr e' && irFreeExprList rest') = true
          rw [transformExpr_irFree e e' he, transformExprList_irFree rest rest' hr]
          rfl

/-- Option version of `transformExpr_irFree`. -/
theorem transformExprOpt_irFree :
    ∀ oe oe', transformExprOpt oe = .ok oe' → irFreeExprOpt oe' = true
  | none, _, h => by injection h with h; subst h; rfl
  | some e, oe', h => by
      simp only [transformExprOpt] at h
      cases he : transformExpr e with
      | error m => rw [he] at h; exact Except.noConfusion h
      | ok e' =>
        rw [he] at h
        injection h with h
        subst h
        exact transformExpr_irFree e e' he

/-- A successful bottom-up rewrite leaves no IR expression variant in the
resulting statement. -/
theorem transformStmt_irFree :
    ∀ s s', transformStmt s = .ok s' → irFreeStmt s' = true
  | .callStmt c, s', h => by
      simp only [transformStmt] at h
      cases hc : transformInstrCall c with
      | error m => rw [hc] at h; exact Except.noConfusion h
      | ok c' =>
        rw [hc] at h
        injection h with h
        subst h
        exact transformInstrCall_irFree c c' hc
  | .declareVar n init, s', h => by
      simp only [transformStmt] at h
      cases hi : transformExpr init with
      | error m => rw [hi] at h; exact Except.noConfusion h
      | ok init' =>
        rw [hi] at h
        injection h with h
        subst h
        exact transformExpr_irFree init init' hi
  | .final _, _, h => by injection h with h; subst h; rfl

/-- List version of `transformStmt_irFree`. -/
theorem transformStmtList_irFree :
    ∀ ss ss', transformStmtList ss = .ok ss' → irFreeStmtList ss' = true
  | [], _, h => by injection h with h; subst h; rfl
  | s :: rest, ss', h => by
      simp only [transformStmtList] at h
      cases hs : transformStmt s with
      | error m => rw [hs] at h; exact Except.noConfusion h
      | ok s' =>
        rw [hs] at h
        cases hr : transformStmtList rest with
        | error m => rw [hr] at h; exact Except.noConfusion h
        | ok rest' =>
          rw [hr] at h
          injection h with h
          subst h
          show (irFreeStmt s' && irFreeStmtList rest') = true
          rw [transformStmt_irFree s s' hs, transformStmtList_irFree rest rest' hr]
          rfl

/-- A successful bottom-up rewrite leaves no IR expression variant in the
arguments of a statement-level instruction call. -/
theorem transformInstrCall_irFree :
    ∀ c c', transformInstrCall c = .ok c' → irFreeInstrCall c' = true
  | .text _ _ _, _, h => by injection h with h; subst h; rfl
  | .elementStart _ _ _ _ _, _, h => by injection h with h; subst h; rfl
  | .element _ _ _ _ _, _, h => by injection h with h; subst h; rfl
  | .elementEnd _, _, h => by injection h with h; subst h; rfl
  | .elementContainerStart _ _ _ _, _, h => by injection h with h; subst h; rfl
  | .elementContainer _ _ _ _, _, h => by injection h with h; subst h; rfl
  | .elementContainerEnd, _, h => by injection h with h; subst h; rfl
  | .template slot fnRef decls vars tag attrs span, c', h => by
      simp only [transformInstrCall] at h
      cases hf : transformExpr fnRef with
      | error m => rw [hf] at h; exact Except.noConfusion h
      | ok fnRef' =>
        rw [hf] at h
        injection h with h
        subst h
        exact transformExpr_irFree fnRef fnRef' hf
  | .pipe _ _, _, h => by injection h with h; subst h; rfl
  | .listener name handlerFn, c', h => by
      simp only [transformInstrCall] at h
      cases hf : transformExpr handlerFn with
      | error m => rw [hf] at h; exact Except.noConfusion h
      | ok f' =>
        rw [hf] at h
        injection h with h
        subst h
        exact transformExpr_irFree handlerFn f' hf
  | .advance _ _, _, h => by injection h with h; subst h; rfl
  | .property name e span, c', h => by
      simp only [transformInstrCall] at h
      cases he : transformExpr e with
      | error m => rw [he] at h; exact Except.noConfusion h
      | ok e' =>
        rw [he] at h
        injection h with h
        subst h
        exact transformExpr_irFree e e' he
  | .propertyInterpolate name ss es span, c', h => by
      simp only [transformInstrCall] at h
      cases hes : transformExprList es with
      | error m => rw [hes] at h; exact Except.noConfusion h
      | ok es' =>
        rw [hes] at h
        injection h with h
        subst h
        exact transformExprList_irFree es es' hes
  | .styleProp name e u, c', h => by
      simp only [transformInstrCall] at h
      cases he : transformExpr e with
      | error m => rw [he] at h; exact Except.noConfusion h
      | ok e' =>
        rw [he] at h
        injection h with h
        subst h
        exact transformExpr_irFree e e' he
  | .stylePropInterpolate name ss es u, c', h => by
      simp only [transformInstrCall] at h
      cases hes : transformExprList es with
      | error m => rw [hes] at h; exact Except.noConfusion h
      | ok es' =>
        rw [hes] at h
        injection h with h
        subst h
        exact transformExprList_irFree es es' hes
  | .classProp name e, c', h => by
      simp only [transformInstrCall] at h
      cases he : transformExpr e with
      | error m => rw [he] at h; exact Except.noConfusion h
      | ok e' =>
        rw [he] at h
        injection h with h
        subst h
        exact transformExpr_irFree e e' he
  | .styleMap e, c', h => by
      simp only [transformInstrCall] at h
      cases he : transformExpr e with
      | error m => rw [he] at h; exact Except.noConfusion h
      | ok e' =>
        rw [he] at h
        injection h with h
        subst h
        exact transformExpr_irFree e e' he
  | .styleMapInterpolate ss es, c', h => by
      simp only [transformInstrCall] at h
      cases hes : transformExprList es with
      | error m => rw [hes] at h; exact Except.noConfusion h
      | ok es' =>
        rw [hes] at h
        injection h with h
        subst h
        exact transformExprList_irFree es es' hes
  | .classMap e, c', h => by
      simp only [transformInstrCall] at h
      cases he : transformExpr e with
      | error m => rw [he] at h; exact Except.noConfusion h
      | ok e' =>
        rw [he] at h
        injection h with h
        subst h
        exact transformExpr_irFree e e' he
  | .classMapInterpolate ss es, c', h => by
      simp only [transformInstrCall] at h
      cases hes : transformExprList es with
      | error m => rw [hes] at h; exact Except.noConfusion h
      | ok es' =>
        rw [hes] at h
        injection h with h
        subst h
        exact transformExprList_irFree es es' hes
  | .textInterpolate ss es span, c', h => by
      simp only [transformInstrCall] at h
      cases hes : transformExprList es with
      | error m => rw [hes] at h; exact Except.noConfusion h
      | ok es' =>
        rw [hes] at h
        injection h with h
        subst h
        exact transformExprList_irFree es es' hes
  | .attributeCall name e, c', h => by
      simp only [transformInstrCall] at h
      cases he : transformExpr e with
      | error m => rw [he] at h; exact Except.noConfusion h
      | ok e' =>
        rw [he] at h
        injection h with h
        subst h
        exact transformExpr_irFree e e' he
  | .attributeInterpolate name ss es, c', h => by
      simp only [transformInstrCall] at h
      cases hes : transformExprList es with
      | error m => rw [hes] at h; exact Except.noConfusion h
      | ok es' =>
        rw [hes] at h
        injection h with h
        subst h
        exact transformExprList_irFree es es' hes
  | .hostProperty name e, c', h => by
      simp only [transformInstrCall] at h
      cases he : transformExpr e with
      | error m => rw [he] at h; exact Except.noConfusion h
      | ok e' =>
        rw [he] at h
        injection h with h
        subst h
        exact transformExpr_irFree e e' he

end

/-- Rewriting a list of sub-expressions preserves its length. -/
theorem transformExprList_length :
    ∀ es es', transformExprList es = .ok es' → es'.length = es.length
  | [], _, h => by injection h with h; subst h; rfl
  | e :: rest, es', h => by
      simp only [transformExprList] at h
      cases he : transformExpr e with
      | error m => rw [he] at h; exact Except.noConfusion h
      | ok e' =>
        rw [he] at h
        cases hr : transformExprList rest with
        | error m => rw [hr] at h; exact Except.noConfusion h
        | ok rest' =>
          rw [hr] at h
          injection h with h
          subst h
          simp only [List.length_cons, transformExprList_length rest rest' hr]

/-- Rewriting an interpolation carrier keeps the carrier shape: the literal
fragments are untouched and the sub-expressions are rewritten one-for-one. -/
theorem transformInterpolation_eq (i : Interpolation) (i' : Interpolation)
    (h : transformInterpolation i = .ok i') :
    ∃ es', transformExprList i.expressions = .ok es' ∧
      i' = ⟨i.strings, es'⟩ ∧ es'.length = i.expressions.length := by
  simp only [transformInterpolation] at h
  cases hes : transformExprList i.expressions with
  | error m => rw [hes] at h; exact Except.noConfusion h
  | ok es' =>
    rw [hes] at h
    injection h with h
    exact ⟨es', rfl, h.symm, transformExprList_length _ es' hes⟩

/-- Rewriting a binding payload leaves no IR expression variant in it. -/
theorem transformOpExpr_irFree :
    ∀ oe oe', transformOpExpr oe = .ok oe' → irFreeOpExpr oe' = true
  | .expr e, oe', h => by
      simp only [transformOpExpr] at h
      cases he : transformExpr e with
      | error m => rw [he] at h; exact Except.noConfusion h
      | ok e' =>
        rw [he] at h
        injection h with h
        subst h
        exact transformExpr_irFree e e' he
  | .interp i, oe', h => by
      simp only [transformOpExpr, transformInterpolation] at h
      cases hes : transformExprList i.expressions with
      | error m => rw [hes] at h; exact Except.noConfusion h
      | ok es' =>
        rw [hes] at h
        injection h with h
        subst h
        exact transformExprList_irFree _ es' hes

/-- A successful update-operation lowering step yields a pass-through
statement wrapper with no IR expression variant inside. -/
theorem reifyUpdateOp_ok (op op' : UpdateOp) (h : reifyUpdateOp op = .ok op') :
    op'.isStatementOp = true ∧ irFreeUpdateOp op' = true := by
  cases op with
  | advance delta span => injection h with h; subst h; exact ⟨rfl, rfl⟩
  | property name e span =>
      simp only [reifyUpdateOp, transformUpdateOp] at h
      cases he : transformOpExpr e with
      | error m => rw [he] at h; exact Except.noConfusion h
      | ok e' =>
        rw [he] at h
        cases e' with
        | interp i =>
            injection h with h; subst h
            exact ⟨rfl, transformOpExpr_irFree e (.interp i) he⟩
        | expr e2 =>
            injection h with h; subst h
            exact ⟨rfl, transformOpExpr_irFree e (.expr e2) he⟩
  | styleProp name e u =>
      simp only [reifyUpdateOp, transformUpdateOp] at h
      cases he : transformOpExpr e with
      | error m => rw [he] at h; exact Except.noConfusion h
      | ok e' =>
        rw [he] at h
        cases e' with
        | interp i =>
            injection h with h; subst h
            exact ⟨rfl, transformOpExpr_irFree e (.interp i) he⟩
        | expr e2 =>
            injection h with h; subst h
            exact ⟨rfl, transformOpExpr_irFree e (.expr e2) he⟩
  | classProp name e =>
      simp only [reifyUpdateOp, transformUpdateOp] at h
      cases he : transformExpr e with
      | error m => rw [he] at h; exact Except.noConfusion h
      | ok e' =>
        rw [he] at h
        injection h with h; subst h
        exact ⟨rfl, transformExpr_irFree e e' he⟩
  | styleMap e =>
      simp only [reifyUpdateOp, transformUpdateOp] at h
      cases he : transformOpExpr e with
      | error m => rw [he] at h; exact Except.noConfusion h
      | ok e' =>
        rw [he] at h
        cases e' with
        | interp i =>
            injection h with h; subst h
            exact ⟨rfl, transformOpExpr_irFree e (.interp i) he⟩
        | expr e2 =>
            injection h with h; subst h
            exact ⟨rfl, transformOpExpr_irFree e (.expr e2) he⟩
  | classMap e =>
      simp only [reifyUpdateOp, transformUpdateOp] at h
      cases he : transformOpExpr e with
      | error m => rw [he] at h; exact Except.noConfusion h
      | ok e' =>
        rw [he] at h
        cases e' with
        | interp i =>
            injection h with h; subst h
            exact ⟨rfl, transformOpExpr_irFree e (.interp i) he⟩
        | expr e2 =>
            injection h with h; subst h
            exact ⟨rfl, transformOpExpr_irFree e (.expr e2) he⟩
  | interpolateText i span =>
      simp only [reifyUpdateOp, transformUpdateOp, transformInterpolation] at h
      cases hes : transformExprList i.expressions with
      | error m => rw [hes] at h; exact Except.noConfusion h
      | ok es' =>
        rw [hes] at h
        injection h with h; subst h
        exact ⟨rfl, transformExprList_irFree _ es' hes⟩
  | attributeOp name e =>
      simp only [reifyUpdateOp, transformUpdateOp] at h
      cases he : transformOpExpr e with
      | error m => rw [he] at h; exact Except.noConfusion h
      | ok e' =>
        rw [he] at h
        cases e' with
        | interp i =>
            injection h with h; subst h
            exact ⟨rfl, transformOpExpr_irFree e (.interp i) he⟩
        | expr e2 =>
            injection h with h; subst h
            exact ⟨rfl, transformOpExpr_irFree e (.expr e2) he⟩
  | hostProperty name e =>
      simp only [reifyUpdateOp, transformUpdateOp] at h
      cases he : transformOpExpr e with
      | error m => rw [he] at h; exact Except.noConfusion h
      | ok e' =>
        rw [he] at h
        cases e' with
        | interp i => exact Except.noConfusion h
        | expr e2 =>
            injection h with h; subst h
            exact ⟨rfl, transformOpExpr_irFree e (.expr e2) he⟩
  | variableOp xref nm init =>
      simp only [reifyUpdateOp, transformUpdateOp] at h
      cases hi : transformExpr init with
      | error m => rw [hi] at h; exact Except.noConfusion h
      | ok init' =>
        rw [hi] at h
        cases nm with
        | none => exact Except.noConfusion h
        | some n =>
            injection h with h; subst h
            exact ⟨rfl, transformExpr_irFree init init' hi⟩
  | statement s =>
      simp only [reifyUpdateOp, transformUpdateOp] at h
      cases hs : transformStmt s with
      | error m => rw [hs] at h; exact Except.noConfusion h
      | ok s' =>
        rw [hs] at h
        injection h with h; subst h
        exact ⟨rfl, transformStmt_irFree s s' hs⟩
  | unknownOp k => exact Except.noConfusion h

/-- Every operation of a successfully reified update list is a statement
wrapper with no IR expression variant inside. -/
theorem reifyUpdateOpList_ok :
    ∀ ops ops', reifyUpdateOpList ops = .ok ops' →
      ∀ op' ∈ ops', op'.isStatementOp = true ∧ irFreeUpdateOp op' = true
  | [], _, h => by
      injection h with h; subst h
      intro op' hm
      exact absurd hm (List.not_mem_nil _)
  | op :: rest, ops', h => by
      simp only [reifyUpdateOpList] at h
      cases ho : reifyUpdateOp op with
      | error m => rw [ho] at h; exact Except.noConfusion h
      | ok op2 =>
        rw [ho] at h
        cases hr : reifyUpdateOpList rest with
        | error m => rw [hr] at h; exact Except.noConfusion h
        | ok rest' =>
          rw [hr] at h
          injection h with h
          subst h
          intro op' hm
          rcases List.mem_cons.mp hm with h1 | h2
          · subst h1; exact reifyUpdateOp_ok op op' ho
          · exact reifyUpdateOpList_ok rest rest' hr op' h2

/-- Element-wise characterisation of a successful update-list reification:
the output has the same length and its i-th element is the lowering of the
i-th input operation. -/
theorem reifyUpdateOpList_get :
    ∀ ops ops', reifyUpdateOpList ops = .ok ops' →
      ops'.length = ops.length ∧
      ∀ i (h1 : i < ops.length) (h2 : i < ops'.length),
        reifyUpdateOp (ops.get ⟨i, h1⟩) = .ok (ops'.get ⟨i, h2⟩)
  | [], _, h => by
      injection h with h; subst h
      exact ⟨rfl, fun i h1 _ => absurd h1 (Nat.not_lt_zero i)⟩
  | op :: rest, ops', h => by
      simp only [reifyUpdateOpList] at h
      cases ho : reifyUpdateOp op with
      | error m => rw [ho] at h; exact Except.noConfusion h
      | ok op2 =>
        rw [ho] at h
        cases hr : reifyUpdateOpList rest with
        | error m => rw [hr] at h; exact Except.noConfusion h
        | ok rest' =>
          rw [hr] at h
          injection h with h
          subst h
          refine ⟨by simp [List.length_cons, (reifyUpdateOpList_get rest rest' hr).1], ?_⟩
          intro i h1 h2
          cases i with
          | zero => exact ho
          | succ j =>
              exact (reifyUpdateOpList_get rest rest' hr).2 j
                (Nat.lt_of_succ_lt_succ h1) (Nat.lt_of_succ_lt_succ h2)

/-- When every reified handler operation is a statement wrapper, extraction
succeeds and returns exactly the wrapped statements in order. -/
theorem extractHandlerStatements_all :
    ∀ ops, (∀ op ∈ ops, op.isStatementOp = true) →
      extractHandlerStatements ops = .ok (ops.filterMap UpdateOp.wrappedStatement)
  | [], _ => rfl
  | op :: rest, hall => by
      have h0 := hall op (List.mem_cons_self op rest)
      have hr := extractHandlerStatements_all rest
        (fun o hm => hall o (List.mem_cons_of_mem _ hm))
      cases op with
      | statement s =>
          simp only [extractHandlerStatements, hr, List.filterMap_cons]
          rfl
      | advance a b => exact Bool.noConfusion h0
      | property a b c => exact Bool.noConfusion h0
      | styleProp a b c => exact Bool.noConfusion h0
      | classProp a b => exact Bool.noConfusion h0
      | styleMap a => exact Bool.noConfusion h0
      | classMap a => exact Bool.noConfusion h0
      | interpolateText a b => exact Bool.noConfusion h0
      | attributeOp a b => exact Bool.noConfusion h0
      | hostProperty a b => exact Bool.noConfusion h0
      | variableOp a b c => exact Bool.noConfusion h0
      | unknownOp a => exact Bool.noConfusion h0

/-- If some reified handler operation is not a statement wrapper, extraction
aborts with a fatal assertion error. -/
theorem extractHandlerStatements_error :
    ∀ ops, (∃ op ∈ ops, op.isStatementOp = false) →
      ∃ m, extractHandlerStatements ops = .error m
  | [], h => by
      rcases h with ⟨op, hm, _⟩
      exact absurd hm (List.not_mem_nil op)
  | op :: rest, h => by
      cases op with
      | statement s =>
          rcases h with ⟨o, hm, hfalse⟩
          rcases List.mem_cons.mp hm with h1 | h2
          · subst h1; exact Bool.noConfusion hfalse
          · rcases extractHandlerStatements_error rest ⟨o, h2, hfalse⟩ with ⟨m, hm'⟩
            refine ⟨m, ?_⟩
            simp only [extractHandlerStatements, hm']
      | advance a b => exact ⟨_, rfl⟩
      | property a b c => exact ⟨_, rfl⟩
      | styleProp a b c => exact ⟨_, rfl⟩
      | classProp a b => exact ⟨_, rfl⟩
      | styleMap a => exact ⟨_, rfl⟩
      | classMap a => exact ⟨_, rfl⟩
      | interpolateText a b => exact ⟨_, rfl⟩
      | attributeOp a b => exact ⟨_, rfl⟩
      | hostProperty a b => exact ⟨_, rfl⟩
      | variableOp a b c => exact ⟨_, rfl⟩
      | unknownOp a => exact ⟨_, rfl⟩

/-- Extraction preserves IR-freeness of the wrapped statements. -/
theorem extractHandlerStatements_irFree :
    ∀ ops ss, extractHandlerStatements ops = .ok ss →
      (∀ op ∈ ops, irFreeUpdateOp op = true) → irFreeStmtList ss = true
  | [], _, h, _ => by injection h with h; subst h; rfl
  | op :: rest, ss, h, hall => by
      cases op with
      | statement s =>
          simp only [extractHandlerStatements] at h
          cases hr : extractHandlerStatements rest with
          | error m => rw [hr] at h; exact Except.noConfusion h
          | ok ss' =>
            rw [hr] at h
            injection h with h
            subst h
            show (irFreeStmt s && irFreeStmtList ss') = true
            have h1 : irFreeStmt s = true :=
              hall (.statement s) (List.mem_cons_self _ _)
            rw [h1, extractHandlerStatements_irFree rest ss' hr
              (fun o hm => hall o (List.mem_cons_of_mem _ hm))]
            rfl
      | advance a b => exact Except.noConfusion h
      | property a b c => exact Except.noConfusion h
      | styleProp a b c => exact Except.noConfusion h
      | classProp a b => exact Except.noConfusion h
      | styleMap a => exact Except.noConfusion h
      | classMap a => exact Except.noConfusion h
      | interpolateText a b => exact Except.noConfusion h
      | attributeOp a b => exact Except.noConfusion h
      | hostProperty a b => exact Except.noConfusion h
      | variableOp a b c => exact Except.noConfusion h
      | unknownOp a => exact Except.noConfusion h

/-- A successfully built listener handler function contains no IR
expression variant. -/
theorem reifyListenerHandler_irFree (u : CompilationUnit) (name : String)
    (hops : List UpdateOp) (consumes : Bool) (f : Expr)
    (h : reifyListenerHandler u name hops consumes = .ok f) :
    irFreeExpr f = true := by
  simp only [reifyListenerHandler, reifyUpdateOperations] at h
  cases hr : reifyUpdateOpList hops with
  | error m => rw [hr] at h; exact Except.noConfusion h
  | ok reified =>
    simp only [hr] at h
    cases he : extractHandlerStatements reified with
    | error m => rw [he] at h; exact Except.noConfusion h
    | ok stmts =>
      rw [he] at h
      injection h with h
      subst h
      exact extractHandlerStatements_irFree reified stmts he
        (fun o hm => (reifyUpdateOpList_ok hops reified hr o hm).2)

/-- A successful create-operation lowering step yields a pass-through
statement wrapper with no IR expression variant inside. -/
theorem reifyCreateOp_ok (u : CompilationUnit) (op op' : CreateOp)
    (h : reifyCreateOp u op = .ok op') :
    op'.isStatementOp = true ∧ irFreeCreateOp op' = true := by
  cases op with
  | text a b c => injection h with h; subst h; exact ⟨rfl, rfl⟩
  | elementStart a b c d e => injection h with h; subst h; exact ⟨rfl, rfl⟩
  | element a b c d e => injection h with h; subst h; exact ⟨rfl, rfl⟩
  | elementEnd a => injection h with h; subst h; exact ⟨rfl, rfl⟩
  | containerStart a b c d e => injection h with h; subst h; exact ⟨rfl, rfl⟩
  | container a b c d e => injection h with h; subst h; exact ⟨rfl, rfl⟩
  | containerEnd => injection h with h; subst h; exact ⟨rfl, rfl⟩
  | pipe a b => injection h with h; subst h; exact ⟨rfl, rfl⟩
  | template xref slot tag attrs span =>
      cases hv : u.isViewUnit with
      | false => simp [reifyCreateOp, transformCreateOp, hv] at h
      | true =>
        simp only [reifyCreateOp, transformCreateOp, hv] at h
        cases hl : u.jobViews.lookup xref with
        | none => simp [hl] at h
        | some cv =>
            simp only [hl] at h
            rw [if_pos trivial] at h
            injection h with h
            subst h
            exact ⟨rfl, rfl⟩
  | listener name fnName hops consumes =>
      simp only [reifyCreateOp, transformCreateOp] at h
      cases hf : reifyListenerHandler u fnName hops consumes with
      | error m => rw [hf] at h; exact Except.noConfusion h
      | ok f =>
        rw [hf] at h
        injection h with h
        subst h
        exact ⟨rfl, reifyListenerHandler_irFree u fnName hops consumes f hf⟩
  | variableOp xref nm init =>
      simp only [reifyCreateOp, transformCreateOp] at h
      cases hi : transformExpr init with
      | error m => rw [hi] at h; exact Except.noConfusion h
      | ok init' =>
        rw [hi] at h
        cases nm with
        | none => exact Except.noConfusion h
        | some n =>
            injection h with h; subst h
            exact ⟨rfl, transformExpr_irFree init init' hi⟩
  | statement s =>
      simp only [reifyCreateOp, transformCreateOp] at h
      cases hs : transformStmt s with
      | error m => rw [hs] at h; exact Except.noConfusion h
      | ok s' =>
        rw [hs] at h
        injection h with h; subst h
        exact ⟨rfl, transformStmt_irFree s s' hs⟩
  | unknownOp k => exact Except.noConfusion h

/-- Every operation of a successfully reified create list is a statement
wrapper with no IR expression variant inside. -/
theorem reifyCreateOpList_ok (u : CompilationUnit) :
    ∀ ops ops', reifyCreateOpList u ops = .ok ops' →
      ∀ op' ∈ ops', op'.isStatementOp = true ∧ irFreeCreateOp op' = true
  | [], _, h => by
      injection h with h; subst h
      intro op' hm
      exact absurd hm (List.not_mem_nil _)
  | op :: rest, ops', h => by
      simp only [reifyCreateOpList] at h
      cases ho : reifyCreateOp u op with
      | error m => rw [ho] at h; exact Except.noConfusion h
      | ok op2 =>
        rw [ho] at h
        cases hr : reifyCreateOpList u rest with
        | error m => rw [hr] at h; exact Except.noConfusion h
        | ok rest' =>
          rw [hr] at h
          injection h with h
          subst h
          intro op' hm
          rcases List.mem_cons.mp hm with h1 | h2
          · subst h1; exact reifyCreateOp_ok u op op' ho
          · exact reifyCreateOpList_ok u rest rest' hr op' h2

/-- Element-wise characterisation of a successful create-list reification:
the output has the same length and its i-th element is the lowering of the
i-th input operation. -/
theorem reifyCreateOpList_get (u : CompilationUnit) :
    ∀ ops ops', reifyCreateOpList u ops = .ok ops' →
      ops'.length = ops.length ∧
      ∀ i (h1 : i < ops.length) (h2 : i < ops'.length),
        reifyCreateOp u (ops.get ⟨i, h1⟩) = .ok (ops'.get ⟨i, h2⟩)
  | [], _, h => by
      injection h with h; subst h
      exact ⟨rfl, fun i h1 _ => absurd h1 (Nat.not_lt_zero i)⟩
  | op :: rest, ops', h => by
      simp only [reifyCreateOpList] at h
      cases ho : reifyCreateOp u op with
      | error m => rw [ho] at h; exact Except.noConfusion h
      | ok op2 =>
        rw [ho] at h
        cases hr : reifyCreateOpList u rest with
        | error m => rw [hr] at h; exact Except.noConfusion h
        | ok rest' =>
          rw [hr] at h
          injection h with h
          subst h
          refine ⟨by simp [List.length_cons, (reifyCreateOpList_get u rest rest' hr).1], ?_⟩
          intro i h1 h2
          cases i with
          | zero => exact ho
          | succ j =>
              exact (reifyCreateOpList_get u rest rest' hr).2 j
                (Nat.lt_of_succ_lt_succ h1) (Nat.lt_of_succ_lt_succ h2)

/-- After a successful `reifyUnit`, both operation lists of the resulting
unit hold only IR-free statement wrappers. -/
theorem reifyUnit_ok (u u' : CompilationUnit) (h : reifyUnit u = .ok u') :
    (∀ op ∈ u'.create, op.isStatementOp = true ∧ irFreeCreateOp op = true) ∧
    (∀ op ∈ u'.update, op.isStatementOp = true ∧ irFreeUpdateOp op = true) := by
  simp only [reifyUnit, reifyCreateOperations, reifyUpdateOperations] at h
  cases hc : reifyCreateOpList u u.create with
  | error m => rw [hc] at h; exact Except.noConfusion h
  | ok create' =>
    simp only [hc] at h
    cases hu : reifyUpdateOpList u.update with
    | error m => rw [hu] at h; exact Except.noConfusion h
    | ok update' =>
      simp only [hu] at h
      injection h with h
      subst h
      exact ⟨reifyCreateOpList_ok u u.create create' hc,
             reifyUpdateOpList_ok u.update update' hu⟩

/-- After a successful `phaseReify`, every unit of the resulting job
satisfies the per-unit closure property. -/
theorem reifyUnitList_ok :
    ∀ us us', reifyUnitList us = .ok us' →
      ∀ u' ∈ us',
        (∀ op ∈ u'.create, op.isStatementOp = true ∧ irFreeCreateOp op = true) ∧
        (∀ op ∈ u'.update, op.isStatementOp = true ∧ irFreeUpdateOp op = true)
  | [], _, h => by
      injection h with h; subst h
      intro u' hm
      exact absurd hm (List.not_mem_nil _)
  | u :: rest, us', h => by
      simp only [reifyUnitList] at h
      cases hu : reifyUnit u with
      | error m => rw [hu] at h; exact Except.noConfusion h
      | ok u2 =>
        rw [hu] at h
        cases hr : reifyUnitList rest with
        | error m => rw [hr] at h; exact Except.noConfusion h
        | ok rest' =>
          rw [hr] at h
          injection h with h
          subst h
          intro u' hm
          rcases List.mem_cons.mp hm with h1 | h2
          · subst h1; exact reifyUnit_ok u u' hu
          · exact reifyUnitList_ok rest rest' hr u' h2

/-- C1: For every compilation job, after `phaseReify` runs, every operation
node remaining in every unit's create list and update list is a pass-through
statement wrapper (`StatementOp`), and no IR expression kind remains in any
expression subtree of any operation. -/
theorem C1_closure_invariant (cpl cpl' : CompilationJob)
    (h : phaseReify cpl = .ok cpl') :
    ∀ u ∈ cpl'.units,
      (∀ op ∈ u.create, op.isStatementOp = true ∧ irFreeCreateOp op = true) ∧
      (∀ op ∈ u.update, op.isStatementOp = true ∧ irFreeUpdateOp op = true) := by
  simp only [phaseReify] at h
  cases hu : reifyUnitList cpl.units with
  | error m => rw [hu] at h; exact Except.noConfusion h
  | ok units' =>
    rw [hu] at h
    injection h with h
    subst h
    exact reifyUnitList_ok cpl.units units' hu

/-- Witness for C1 on a concrete job exercising element, template, listener,
variable and interpolated-property operations. -/
theorem C1_closure_invariant_witness :
    phaseReify exampleJob = .ok exampleJobReified ∧
    ∀ u ∈ exampleJobReified.units,
      (∀ op ∈ u.create, op.isStatementOp = true ∧ irFreeCreateOp op = true) ∧
      (∀ op ∈ u.update, op.isStatementOp = true ∧ irFreeUpdateOp op = true) :=
  ⟨rfl, C1_closure_invariant exampleJob exampleJobReified rfl⟩

/-- C2: A nested-template create operation is lowered to the template
instruction call taking function name, declaration count and variable count
from the sibling unit resolved through the job's view map by the operation's
xref, not from the enclosing unit; and a non-view enclosing unit is a fatal
assertion error. -/
theorem C2_nested_template_wiring (u : CompilationUnit) (xref slot : Nat)
    (tag : String) (attrs span : Option Nat) :
    (∀ cv, u.isViewUnit = true → u.jobViews.lookup xref = some cv →
      reifyCreateOp u (.template xref slot tag attrs span) =
        .ok (.statement (.callStmt (.template slot (.varRef cv.fnName)
          cv.decls cv.vars tag attrs span)))) ∧
    (u.isViewUnit = false →
      reifyCreateOp u (.template xref slot tag attrs span) =
        .error "AssertionError: must be compiling a component") := by
  constructor
  · intro cv hv hl
    simp [reifyCreateOp, transformCreateOp, hv, hl]
  · intro hv
    simp [reifyCreateOp, transformCreateOp, hv]

/-- Witness for C2: a view unit resolving xref 9 to a sibling with name
`Tmpl`, 3 decls and 4 vars; and a non-view unit failing fatally. -/
theorem C2_nested_template_wiring_witness :
    ((true : Bool) = true ∧
      ([(9, (⟨"Tmpl", 3, 4⟩ : ViewData))].lookup 9 = some ⟨"Tmpl", 3, 4⟩) ∧
      reifyCreateOp ⟨0, true, [(9, ⟨"Tmpl", 3, 4⟩)], [], []⟩
          (.template 9 1 "ng-template" (some 2) none) =
        .ok (.statement (.callStmt
          (.template 1 (.varRef "Tmpl") 3 4 "ng-template" (some 2) none)))) ∧
    ((false : Bool) = false ∧
      reifyCreateOp ⟨0, false, [], [], []⟩ (.template 9 1 "t" none none) =
        .error "AssertionError: must be compiling a component") :=
  ⟨⟨rfl, rfl,
    (C2_nested_template_wiring ⟨0, true, [(9, ⟨"Tmpl", 3, 4⟩)], [], []⟩ 9 1
      "ng-template" (some 2) none).1 ⟨"Tmpl", 3, 4⟩ rfl rfl⟩,
   ⟨rfl,
    (C2_nested_template_wiring ⟨0, false, [], [], []⟩ 9 1 "t" none none).2 rfl⟩⟩

/-- C3: A listener's handler function has exactly one parameter named
`$event` when the consumes-event flag is set and none otherwise, regardless
of the handler body; its body is the ordered sequence of the statements
wrapped by the lowered handler operations; and if any lowered handler
operation is not a pass-through statement wrapper, extraction aborts with a
fatal error. -/
theorem C3_listener_function_shape (u : CompilationUnit) (name : String)
    (hops reified ops' : List UpdateOp) (consumes : Bool) :
    (reifyUpdateOperations u hops = .ok reified →
      reifyListenerHandler u name hops consumes =
        .ok (.fn (if consumes then ["$event"] else [])
          (reified.filterMap UpdateOp.wrappedStatement) (some name))) ∧
    ((∃ op ∈ ops', op.isStatementOp = false) →
      ∃ m, extractHandlerStatements ops' = .error m) := by
  constructor
  · intro hr
    have hall : ∀ op ∈ reified, op.isStatementOp = true :=
      fun op hm => (reifyUpdateOpList_ok hops reified hr op hm).1
    simp only [reifyListenerHandler, reifyUpdateOperations] at hr ⊢
    simp only [hr, extractHandlerStatements_all reified hall]
  · exact extractHandlerStatements_error ops'

/-- Witness for C3: a one-statement handler consuming the event value, and
an unreified advance operation making extraction fail. -/
theorem C3_listener_function_shape_witness :
    (reifyUpdateOperations ⟨0, true, [], [], []⟩ [.statement (.final 7)] =
        .ok [.statement (.final 7)] ∧
      reifyListenerHandler ⟨0, true, [], [], []⟩ "handler"
          [.statement (.final 7)] true =
        .ok (.fn ["$event"] [.final 7] (some "handler"))) ∧
    ((∃ op ∈ [(.advance 1 none : UpdateOp)], op.isStatementOp = false) ∧
      ∃ m, extractHandlerStatements [(.advance 1 none : UpdateOp)] = .error m) :=
  ⟨⟨rfl,
    (C3_listener_function_shape ⟨0, true, [], [], []⟩ "handler"
      [.statement (.final 7)] [.statement (.final 7)] [] true).1 rfl⟩,
   ⟨⟨.advance 1 none, List.mem_singleton.mpr rfl, rfl⟩,
    (C3_listener_function_shape ⟨0, true, [], [], []⟩ "handler"
      [.statement (.final 7)] [.statement (.final 7)]
      [(.advance 1 none : UpdateOp)] true).2
      ⟨.advance 1 none, List.mem_singleton.mpr rfl, rfl⟩⟩⟩

/-- C4: A property update operation whose rewritten expression is an
interpolation carrier lowers to the property-interpolate instruction call
receiving exactly the carrier's literal fragments and its rewritten
sub-expressions (one per original sub-expression); otherwise it lowers to
the plain property instruction call with (name, expression, span). -/
theorem C4_property_interpolation_arity (name : String) (ss : List String)
    (es es' : List Expr) (e e' : Expr) (span : Option Nat) :
    (transformExprList es = .ok es' →
      reifyUpdateOp (.property name (.interp ⟨ss, es⟩) span) =
        .ok (.statement (.callStmt (.propertyInterpolate name ss es' span))) ∧
      es'.length = es.length) ∧
    (transformExpr e = .ok e' →
      reifyUpdateOp (.property name (.expr e) span) =
        .ok (.statement (.callStmt (.property name e' span)))) := by
  constructor
  · intro hes
    refine ⟨?_, transformExprList_length es es' hes⟩
    simp [reifyUpdateOp, transformUpdateOp, transformOpExpr,
      transformInterpolation, hes]
  · intro he
    simp [reifyUpdateOp, transformUpdateOp, transformOpExpr, he]

/-- Witness for C4: the spec's interpolated-title example with one
sub-expression and two literal fragments, and a plain binding. -/
theorem C4_property_interpolation_arity_witness :
    (transformExprList [.readVariableExpr 3 (some "name")] =
        .ok [.varRef "name"] ∧
      reifyUpdateOp (.property "title"
          (.interp ⟨["Hello, ", "!"], [.readVariableExpr 3 (some "name")]⟩)
          (some 1)) =
        .ok (.statement (.callStmt (.propertyInterpolate "title"
          ["Hello, ", "!"] [.varRef "name"] (some 1)))) ∧
      [(.varRef "name" : Expr)].length =
        [(.readVariableExpr 3 (some "name") : Expr)].length) ∧
    (transformExpr (.final 4) = .ok (.final 4) ∧
      reifyUpdateOp (.property "p" (.expr (.final 4)) none) =
        .ok (.statement (.callStmt (.property "p" (.final 4) none)))) :=
  ⟨⟨rfl,
    (C4_property_interpolation_arity "title" ["Hello, ", "!"]
      [.readVariableExpr 3 (some "name")] [.varRef "name"]
      (.final 4) (.final 4) (some 1)).1 rfl⟩,
   ⟨rfl,
    (C4_property_interpolation_arity "p" [] [] [] (.final 4) (.final 4)
      none).2 rfl⟩⟩

/-- C5: A successful reification maps each operation of a unit's list to its
lowering in place: the output list has the same length and its i-th element
is the lowering of the i-th input operation, so relative order is preserved
and no operation is skipped or processed out of order. -/
theorem C5_order_preservation (u : CompilationUnit)
    (cOps cOps' : List CreateOp) (uOps uOps' : List UpdateOp) :
    (reifyCreateOperations u cOps = .ok cOps' →
      cOps'.length = cOps.length ∧
      ∀ i (h1 : i < cOps.length) (h2 : i < cOps'.length),
        reifyCreateOp u (cOps.get ⟨i, h1⟩) = .ok (cOps'.get ⟨i, h2⟩)) ∧
    (reifyUpdateOperations u uOps = .ok uOps' →
      uOps'.length = uOps.length ∧
      ∀ i (h1 : i < uOps.length) (h2 : i < uOps'.length),
        reifyUpdateOp (uOps.get ⟨i, h1⟩) = .ok (uOps'.get ⟨i, h2⟩)) :=
  ⟨fun h => reifyCreateOpList_get u cOps cOps' h,
   fun h => reifyUpdateOpList_get uOps uOps' h⟩

/-- Witness for C5 on concrete two-element create and one-element update
lists. -/
theorem C5_order_preservation_witness :
    (reifyCreateOperations ⟨0, true, [], [], []⟩
        [.text 0 "t" none, .containerEnd] =
      .ok [.statement (.callStmt (.text 0 "t" none)),
           .statement (.callStmt .elementContainerEnd)]) ∧
    ([(.statement (.callStmt (.text 0 "t" none)) : CreateOp),
      .statement (.callStmt .elementContainerEnd)].length =
        [(.text 0 "t" none : CreateOp), .containerEnd].length ∧
      ∀ i (h1 : i < [(.text 0 "t" none : CreateOp), .containerEnd].length)
        (h2 : i < [(.statement (.callStmt (.text 0 "t" none)) : CreateOp),
          .statement (.callStmt .elementContainerEnd)].length),
        reifyCreateOp ⟨0, true, [], [], []⟩
            ([(.text 0 "t" none : CreateOp), .containerEnd].get ⟨i, h1⟩) =
          .ok ([(.statement (.callStmt (.text 0 "t" none)) : CreateOp),
            .statement (.callStmt .elementContainerEnd)].get ⟨i, h2⟩)) ∧
    (reifyUpdateOperations ⟨0, true, [], [], []⟩ [.advance 2 none] =
      .ok [.statement (.callStmt (.advance 2 none))]) ∧
    ([(.statement (.callStmt (.advance 2 none)) : UpdateOp)].length =
        [(.advance 2 none : UpdateOp)].length ∧
      ∀ i (h1 : i < [(.advance 2 none : UpdateOp)].length)
        (h2 : i < [(.statement (.callStmt (.advance 2 none)) : UpdateOp)].length),
        reifyUpdateOp ([(.advance 2 none : UpdateOp)].get ⟨i, h1⟩) =
          .ok ([(.statement (.callStmt (.advance 2 none)) : UpdateOp)].get
            ⟨i, h2⟩)) :=
  ⟨rfl,
   (C5_order_preservation ⟨0, true, [], [], []⟩
     [.text 0 "t" none, .containerEnd]
     [.statement (.callStmt (.text 0 "t" none)),
      .statement (.callStmt .elementContainerEnd)]
     [.advance 2 none] [.statement (.callStmt (.advance 2 none))]).1 rfl,
   rfl,
   (C5_order_preservation ⟨0, true, [], [], []⟩
     [.text 0 "t" none, .containerEnd]
     [.statement (.callStmt (.text 0 "t" none)),
      .statement (.callStmt .elementContainerEnd)]
     [.advance 2 none] [.statement (.callStmt (.advance 2 none))]).2 rfl⟩

/-- C6: A reference-read IR expression with slot s and offset d is rewritten
to the reference instruction call with numeric argument s + 1 + d. -/
theorem C6_reference_slot_offset (s d : Nat) :
    reifyIrExpression (.referenceExpr s d) = .ok (.reference (s + 1 + d)) ∧
    transformExpr (.referenceExpr s d) = .ok (.reference (s + 1 + d)) :=
  ⟨rfl, rfl⟩

/-- C7: A host-level property update whose rewritten expression is an
interpolation carrier aborts with the fatal "not yet handled" error;
otherwise it lowers to the host-property instruction call with
(name, expression). -/
theorem C7_host_property_interpolation (name : String) (ss : List String)
    (es es' : List Expr) (e e' : Expr) :
    (transformExprList es = .ok es' →
      reifyUpdateOp (.hostProperty name (.interp ⟨ss, es⟩)) =
        .error "not yet handled") ∧
    (transformExpr e = .ok e' →
      reifyUpdateOp (.hostProperty name (.expr e)) =
        .ok (.statement (.callStmt (.hostProperty name e')))) := by
  constructor
  · intro hes
    simp [reifyUpdateOp, transformUpdateOp, transformOpExpr,
      transformInterpolation, hes]
  · intro he
    simp [reifyUpdateOp, transformUpdateOp, transformOpExpr, he]

/-- Witness for C7: an interpolated host property aborting, and a plain one
lowering. -/
theorem C7_host_property_interpolation_witness :
    (transformExprList [(.final 0 : Expr)] = .ok [.final 0] ∧
      reifyUpdateOp (.hostProperty "p" (.interp ⟨["a", "b"], [.final 0]⟩)) =
        .error "not yet handled") ∧
    (transformExpr (.final 1) = .ok (.final 1) ∧
      reifyUpdateOp (.hostProperty "p" (.expr (.final 1))) =
        .ok (.statement (.callStmt (.hostProperty "p" (.final 1))))) :=
  ⟨⟨rfl,
    (C7_host_property_interpolation "p" ["a", "b"] [.final 0] [.final 0]
      (.final 1) (.final 1)).1 rfl⟩,
   ⟨rfl,
    (C7_host_property_interpolation "p" ["a", "b"] [.final 0] [.final 0]
      (.final 1) (.final 1)).2 rfl⟩⟩

/-- C8: A create operation, update operation, or IR expression outside the
supported dispatch set (including lexical reads, pure-function parameter
markers, and restore-view expressions whose view token is still numeric)
makes the pass abort with a fatal error naming the offending kind, rather
than dropping or passing through the node. -/
theorem C8_fatal_on_unknown (u : CompilationUnit) (ck uk ek nm : String)
    (v : Nat) :
    reifyCreateOp u (.unknownOp ck) =
      .error ("AssertionError: Unsupported reification of create op " ++ ck) ∧
    reifyUpdateOp (.unknownOp uk) =
      .error ("AssertionError: Unsupported reification of update op " ++ uk) ∧
    reifyIrExpression (.unknownIrExpr ek) =
      .error ("AssertionError: Unsupported reification of ir.Expression kind: " ++ ek) ∧
    reifyIrExpression (.lexicalReadExpr nm) =
      .error ("AssertionError: unresolved LexicalRead of " ++ nm) ∧
    reifyIrExpression (.restoreViewExpr (Sum.inl v)) =
      .error "AssertionError: unresolved RestoreView" ∧
    reifyIrExpression .pureFunctionParameterExpr =
      .error "AssertionError: expected PureFunctionParameterExpr to have been extracted" :=
  ⟨rfl, rfl, rfl, rfl, rfl, rfl⟩

/-- C9 counterexample: two container-start operations that differ only in
their tag name lower to the same instruction call, and that call carries
only slot, attribute table, local-ref table and span — so the emitted
container instruction call does not carry the tag name, refuting the claim
as stated for container operations. -/
theorem C9_element_container_counterexample :
    reifyCreateOp ⟨0, true, [], [], []⟩
        (.containerStart 2 "ng-container" none none none) =
      reifyCreateOp ⟨0, true, [], [], []⟩
        (.containerStart 2 "other-tag" none none none) ∧
    reifyCreateOp ⟨0, true, [], [], []⟩
        (.containerStart 2 "ng-container" none none none) =
      .ok (.statement (.callStmt (.elementContainerStart 2 none none none))) :=
  ⟨rfl, rfl⟩

/-- C9 (amended): element-start and self-closing element create operations
lower to instruction calls carrying (slot, tag, attribute table, local-ref
table, span); container-start and self-closing container operations lower to
instruction calls carrying (slot, attribute table, local-ref table, span)
and no tag; the end markers carry at most an optional source span. -/
theorem C9_structural_ops_amended (u : CompilationUnit) (slot : Nat)
    (tag : String) (attrs refs span : Option Nat) :
    reifyCreateOp u (.elementStart slot tag attrs refs span) =
      .ok (.statement (.callStmt (.elementStart slot tag attrs refs span))) ∧
    reifyCreateOp u (.element slot tag attrs refs span) =
      .ok (.statement (.callStmt (.element slot tag attrs refs span))) ∧
    reifyCreateOp u (.containerStart slot tag attrs refs span) =
      .ok (.statement (.callStmt (.elementContainerStart slot attrs refs span))) ∧
    reifyCreateOp u (.container slot tag attrs refs span) =
      .ok (.statement (.callStmt (.elementContainer slot attrs refs span))) ∧
    reifyCreateOp u (.elementEnd span) =
      .ok (.statement (.callStmt (.elementEnd span))) ∧
    reifyCreateOp u .containerEnd =
      .ok (.statement (.callStmt .elementContainerEnd)) :=
  ⟨rfl, rfl, rfl, rfl, rfl, rfl⟩

/-- C10: The update-operation lowering ignores which compilation unit the
list belongs to: for any two units and the same list, the results coincide. -/
theorem C10_update_lowering_unit_independent (u1 u2 : CompilationUnit)
    (ops : List UpdateOp) :
    reifyUpdateOperations u1 ops = reifyUpdateOperations u2 ops := rfl

end Reify
